import Mathlib

/-!
Shallow embedding of the hit-statistics reconstruction core of the
osu-tools-py repository (files `src/osu_lib/calculator.py` and `main.py`),
together with theorems settling the specification claims about it.

Counts are modelled as `ℤ` (Python integers) and accuracy values as `ℚ`
(exact-arithmetic model of Python floats).  Python's `round` builtin is
round-half-to-even, modelled exactly by `pyRound` below.
-/

/-- Python's builtin `round` on a rational: nearest integer, ties to even
(banker's rounding), as used by `int(round(x))` throughout the code. -/
def pyRound (q : ℚ) : ℤ :=
  if q - (⌊q⌋ : ℚ) = 1/2 then (if ⌊q⌋ % 2 = 0 then ⌊q⌋ else ⌊q⌋ + 1) else round q

theorem pyRound_le (q : ℚ) : (pyRound q : ℚ) ≤ q + 1/2 := by
  unfold pyRound
  split_ifs with h h2
  · linarith
  · push_cast
    linarith
  · have h3 := abs_sub_round q
    rw [abs_le] at h3
    linarith [h3.1, h3.2]

theorem le_pyRound (q : ℚ) : q - 1/2 ≤ (pyRound q : ℚ) := by
  unfold pyRound
  split_ifs with h h2
  · linarith
  · push_cast
    linarith
  · have h3 := abs_sub_round q
    rw [abs_le] at h3
    linarith [h3.1, h3.2]

theorem pyRound_intCast (n : ℤ) : pyRound (n : ℚ) = n := by
  unfold pyRound
  have hf : ⌊(n : ℚ)⌋ = n := Int.floor_intCast n
  rw [hf]
  have hne : (n : ℚ) - (n : ℚ) ≠ 1/2 := by norm_num
  rw [if_neg hne, round_intCast]

theorem pyRound_mono {x y : ℚ} (h : x ≤ y) : pyRound x ≤ pyRound y := by
  by_contra hc
  push_neg at hc
  have h1 : pyRound y + 1 ≤ pyRound x := hc
  have h1q : (pyRound y : ℚ) + 1 ≤ (pyRound x : ℚ) := by exact_mod_cast h1
  have h2 := pyRound_le x
  have h3 := le_pyRound y
  have hxy : x = y := le_antisymm h (by linarith)
  subst hxy
  omega

theorem pyRound_nonneg {q : ℚ} (h : 0 ≤ q) : 0 ≤ pyRound q := by
  by_contra hc
  push_neg at hc
  have h1 : pyRound q ≤ -1 := by omega
  have h1q : (pyRound q : ℚ) ≤ -1 := by exact_mod_cast h1
  have h2 := le_pyRound q
  linarith

theorem pyRound_le_intCast {q : ℚ} {n : ℤ} (h : q ≤ (n : ℚ)) : pyRound q ≤ n := by
  have := pyRound_mono h
  rwa [pyRound_intCast] at this

theorem intCast_le_pyRound {q : ℚ} {n : ℤ} (h : (n : ℚ) ≤ q) : n ≤ pyRound q := by
  have := pyRound_mono h
  rwa [pyRound_intCast] at this

/-! ### Judgment vocabulary and caller-supplied statistics -/

/-- The judgment kinds used by the four reconstructors (`HitResult` values
taken from the external scoring engine's vocabulary). -/
inductive HitResult where
  | Great | Ok | Meh | Miss | Perfect | Good
  | LargeTickHit | SmallTickHit | SmallTickMiss
deriving DecidableEq

/-- A caller-supplied partial-statistics record: either a key/value mapping
(Python `dict`) or an attribute-bearing object (Pydantic model), each a
finite table from field name to integer count. -/
inductive StatsObj where
  | dict (fields : List (String × ℤ))
  | obj (attrs : List (String × ℤ))
deriving DecidableEq

/-- Exact association-list lookup by field name. -/
def lookupStr (l : List (String × ℤ)) (k : String) : Option ℤ :=
  (l.find? (fun p => p.1 == k)).map Prod.snd

/-- Embedding of `_extract_stat`: `stats_obj.get(attr_name, default)` for a
dict, `getattr(stats_obj, attr_name, default)` for an object, `default`
when the record is `None`.  Lookup is by exact name in both shapes. -/
def extract_stat : Option StatsObj → String → ℤ → ℤ
  | none, _, d => d
  | some (StatsObj.dict f), k, d => (lookupStr f k).getD d
  | some (StatsObj.obj a), k, d => (lookupStr a k).getD d

/-- Python truthiness of the optional statistics record (`not stats_obj`):
`None` and the empty dict are falsy, objects are truthy. -/
def pyTruthy : Option StatsObj → Bool
  | none => false
  | some (StatsObj.dict f) => !f.isEmpty
  | some (StatsObj.obj _) => true

/-- The recognized-key list of `_has_valid_stats`, verbatim from the source
(note the misspelled final entry `small_tck_miss`). -/
def statKeys : List String :=
  ["great", "ok", "meh", "good", "perfect", "miss",
   "large_tick_hit", "small_tick_hit", "small_tck_miss"]

/-- Embedding of `_has_valid_stats`: the record is truthy and some
recognized key holds a strictly positive count. -/
def has_valid_stats (s : Option StatsObj) : Bool :=
  pyTruthy s && statKeys.any (fun k => decide (0 < extract_stat s k 0))

/-- Embedding of the miss-count resolution in `calculate` (lines 509-511):
when the statistics record is valid the miss count is re-read from the
record under the exact key name used by the source, else the caller's
`misses` argument is used. -/
def effective_misses (statistics : Option StatsObj) (misses : ℤ) : ℤ :=
  if has_valid_stats statistics then extract_stat statistics "Miss" 0 else misses

/-- Sum of the counts of a judgment-count table. -/
def sumCounts (l : List (HitResult × ℤ)) : ℤ :=
  (l.map Prod.snd).sum

/-! ### Mode reconstructors, embedded from `src/osu_lib/calculator.py` -/

/-- Embedding of `_sim_osu` (calculator.py): explicit path copies the
supplied record, otherwise the accuracy is inverted through the three
piecewise regimes on the clamped relative accuracy. -/
def sim_osu (acc : ℚ) (total misses : ℤ) (s : Option StatsObj) : List (HitResult × ℤ) :=
  if has_valid_stats s then
    [(HitResult.Great, extract_stat s "great" 0),
     (HitResult.Ok, extract_stat s "ok" 0),
     (HitResult.Meh, extract_stat s "meh" 0),
     (HitResult.Miss, extract_stat s "miss" 0)]
  else
    let relevant : ℤ := total - misses
    let accuracy : ℚ := acc / 100
    if relevant ≤ 0 then [(HitResult.Miss, misses)]
    else
      let relAcc : ℚ := max 0 (min 1 (accuracy * (total : ℚ) / (relevant : ℚ)))
      if 1/4 ≤ relAcc then
        let ratioQ : ℚ := (1 - (relAcc - 1/4) / (3/4)) ^ 2
        let c100 : ℚ := 6 * (relevant : ℚ) * (1 - relAcc) / (5 * ratioQ + 4)
        let c50 : ℚ := c100 * ratioQ
        let n100 : ℤ := pyRound c100
        let n50 : ℤ := pyRound (c100 + c50) - n100
        let n300 : ℤ := total - n100 - n50 - misses
        [(HitResult.Great, max 0 n300), (HitResult.Ok, max 0 n100),
         (HitResult.Meh, max 0 n50), (HitResult.Miss, max 0 misses)]
      else if 1/6 ≤ relAcc then
        let c100 : ℚ := 6 * (relevant : ℚ) * relAcc - (relevant : ℚ)
        let c50 : ℚ := (relevant : ℚ) - c100
        let n100 : ℤ := pyRound c100
        let n50 : ℤ := pyRound (c100 + c50) - n100
        let n300 : ℤ := total - n100 - n50 - misses
        [(HitResult.Great, max 0 n300), (HitResult.Ok, max 0 n100),
         (HitResult.Meh, max 0 n50), (HitResult.Miss, max 0 misses)]
      else
        let c50 : ℚ := 6 * (relevant : ℚ) * relAcc
        let n50 : ℤ := pyRound c50
        let misses2 : ℤ := total - n50
        let n300 : ℤ := total - 0 - n50 - misses2
        [(HitResult.Great, max 0 n300), (HitResult.Ok, max 0 0),
         (HitResult.Meh, max 0 n50), (HitResult.Miss, max 0 misses2)]

/-- Embedding of `_sim_taiko` (calculator.py). -/
def sim_taiko (acc : ℚ) (total misses : ℤ) (s : Option StatsObj) : List (HitResult × ℤ) :=
  if has_valid_stats s then
    [(HitResult.Great, extract_stat s "great" 0),
     (HitResult.Ok, extract_stat s "ok" 0),
     (HitResult.Miss, extract_stat s "miss" 0)]
  else
    let relevant : ℤ := total - misses
    let accuracy : ℚ := acc / 100
    let nGreat : ℤ := pyRound ((2 * accuracy - 1) * (relevant : ℚ))
    let nGood : ℤ := relevant - nGreat
    [(HitResult.Great, max 0 nGreat), (HitResult.Ok, max 0 nGood),
     (HitResult.Miss, max 0 misses)]

/-- Embedding of `_sim_mania` (calculator.py): the five accuracy bands fill
a quintuple of mutable locals (perfect, great, good, ok, meh) which is then
returned with each entry clamped at 0. -/
def sim_mania (acc : ℚ) (total misses : ℤ) (scoreVal : Option ℤ) (s : Option StatsObj) :
    List (HitResult × ℤ) :=
  if has_valid_stats s then
    [(HitResult.Perfect, extract_stat s "perfect" 0),
     (HitResult.Great, extract_stat s "great" 0),
     (HitResult.Good, extract_stat s "good" 0),
     (HitResult.Ok, extract_stat s "ok" 0),
     (HitResult.Meh, extract_stat s "meh" 0),
     (HitResult.Miss, extract_stat s "miss" 0)]
  else
    let relevant : ℤ := total - misses
    let accuracy : ℚ := acc / 100
    let counts : ℤ × ℤ × ℤ × ℤ × ℤ :=
      if 0 < relevant then
        if 96/100 ≤ accuracy then
          let p := 1 - (1 - accuracy) / (4/100)
          let nPerfect := pyRound (p * (relevant : ℚ))
          (nPerfect, relevant - nPerfect, 0, 0, 0)
        else if 90/100 ≤ accuracy then
          let p := 1 - (96/100 - accuracy) / (6/100)
          let nGreat := pyRound (p * (relevant : ℚ))
          (0, nGreat, relevant - nGreat, 0, 0)
        else if 80/100 ≤ accuracy then
          let p := 1 - (90/100 - accuracy) / (10/100)
          let nGood := pyRound (p * (relevant : ℚ))
          (0, 0, nGood, relevant - nGood, 0)
        else if 60/100 ≤ accuracy then
          let p := 1 - (80/100 - accuracy) / (20/100)
          let nOk := pyRound (p * (relevant : ℚ))
          (0, 0, 0, nOk, relevant - nOk)
        else (0, 0, 0, 0, relevant)
      else (0, 0, 0, 0, 0)
    [(HitResult.Perfect, max 0 counts.1),
     (HitResult.Great, max 0 counts.2.1),
     (HitResult.Good, max 0 counts.2.2.1),
     (HitResult.Ok, max 0 counts.2.2.2.1),
     (HitResult.Meh, max 0 counts.2.2.2.2),
     (HitResult.Miss, max 0 misses)]

/-! ### Catch object census -/

/-- A nested element of a juice stream in the decoded catch chart. -/
inductive CatchNested where
  | tiny | droplet | fruit | otherN
deriving DecidableEq

/-- A primary hit object of the decoded catch chart. -/
inductive CatchObj where
  | fruit
  | juice (nested : List CatchNested)
  | otherO
deriving DecidableEq

/-- Census contribution of the nested elements of one juice stream:
(fruits, droplets-including-tiny, tiny droplets), as accumulated by the
inner loop of `_sim_catch`. -/
def nestedCensus : List CatchNested → ℤ × ℤ × ℤ
  | [] => (0, 0, 0)
  | CatchNested.tiny :: rest =>
      let c := nestedCensus rest; (c.1, c.2.1 + 1, c.2.2 + 1)
  | CatchNested.droplet :: rest =>
      let c := nestedCensus rest; (c.1, c.2.1 + 1, c.2.2)
  | CatchNested.fruit :: rest =>
      let c := nestedCensus rest; (c.1 + 1, c.2.1, c.2.2)
  | CatchNested.otherN :: rest => nestedCensus rest

/-- Embedding of the object-census walk shared by both `_sim_catch` copies:
(max_fruits, max_droplets_total, max_tiny_droplets). -/
def catchCensus : List CatchObj → ℤ × ℤ × ℤ
  | [] => (0, 0, 0)
  | CatchObj.fruit :: rest =>
      let c := catchCensus rest; (c.1 + 1, c.2.1, c.2.2)
  | CatchObj.juice ns :: rest =>
      let c := catchCensus rest
      let n := nestedCensus ns
      (c.1 + n.1, c.2.1 + n.2.1, c.2.2 + n.2.2)
  | CatchObj.otherO :: rest => catchCensus rest

theorem nestedCensus_nonneg (ns : List CatchNested) :
    0 ≤ (nestedCensus ns).1 ∧ 0 ≤ (nestedCensus ns).2.1 ∧
    0 ≤ (nestedCensus ns).2.2 ∧ (nestedCensus ns).2.2 ≤ (nestedCensus ns).2.1 := by
  induction ns with
  | nil => simp [nestedCensus]
  | cons h rest ih =>
    cases h <;> simp [nestedCensus] <;> omega

theorem catchCensus_nonneg (objs : List CatchObj) :
    0 ≤ (catchCensus objs).1 ∧ 0 ≤ (catchCensus objs).2.1 ∧
    0 ≤ (catchCensus objs).2.2 ∧ (catchCensus objs).2.2 ≤ (catchCensus objs).2.1 := by
  induction objs with
  | nil => simp [catchCensus]
  | cons h rest ih =>
    cases h with
    | fruit => simp [catchCensus]; omega
    | juice ns =>
      have hn := nestedCensus_nonneg ns
      simp [catchCensus]; omega
    | otherO => simpa [catchCensus] using ih

/-- Embedding of `_sim_catch` (calculator.py): the explicit path copies the
record; the simulation path is the simplified estimate of this copy (all
fruits caught, all tiny droplets caught, misses charged to droplets, no
small-tick-miss entry). -/
def sim_catch (acc : ℚ) (objs : List CatchObj) (misses : ℤ) (s : Option StatsObj) :
    List (HitResult × ℤ) :=
  if has_valid_stats s then
    [(HitResult.Great, extract_stat s "great" 0),
     (HitResult.LargeTickHit, extract_stat s "large_tick_hit" 0),
     (HitResult.SmallTickHit, extract_stat s "small_tick_hit" 0),
     (HitResult.SmallTickMiss, extract_stat s "small_tick_miss" 0),
     (HitResult.Miss, extract_stat s "miss" 0)]
  else
    let c := catchCensus objs
    let maxFruits : ℤ := c.1
    let maxDropletsTotal : ℤ := c.2.1
    let maxTiny : ℤ := c.2.2
    let maxDroplets : ℤ := maxDropletsTotal - maxTiny
    let countDroplets : ℤ := max 0 (maxDroplets - misses)
    let countFruits : ℤ := maxFruits
    let countTiny : ℤ := maxTiny
    [(HitResult.Great, countFruits),
     (HitResult.LargeTickHit, countDroplets),
     (HitResult.SmallTickHit, countTiny),
     (HitResult.Miss, misses)]

/-- Embedding of `_sim_catch` from `main.py` (the complete copy): full
inverse reconstruction of the catch judgment counts, with the optional
caller-supplied droplet-hit and tiny-hit counts. -/
def main_sim_catch (acc : ℚ) (objs : List CatchObj) (misses : ℤ)
    (countDropletsHit countTinyHit : Option ℤ) : List (HitResult × ℤ) :=
  let c := catchCensus objs
  let maxFruits : ℤ := c.1
  let maxDropletsTotal : ℤ := c.2.1
  let maxTiny : ℤ := c.2.2
  let maxDroplets : ℤ := maxDropletsTotal - maxTiny
  let maxCombo : ℤ := maxFruits + maxDroplets
  let accuracy : ℚ := acc / 100
  let countDroplets : ℤ :=
    match countDropletsHit with
    | some v => v
    | none => max 0 (maxDroplets - misses)
  let missedDroplets : ℤ := maxDroplets - countDroplets
  let missedFruits : ℤ := misses - missedDroplets
  let countFruits : ℤ := max 0 (maxFruits - missedFruits)
  let countTiny0 : ℤ :=
    match countTinyHit with
    | some v => v
    | none =>
      let totalObjects : ℤ := maxCombo + maxTiny
      let targetTotalHits : ℤ := pyRound (accuracy * (totalObjects : ℚ))
      targetTotalHits - countFruits - countDroplets
  let countTiny : ℤ := max 0 (min countTiny0 maxTiny)
  let countTinyMisses : ℤ := maxTiny - countTiny
  [(HitResult.Great, countFruits),
   (HitResult.LargeTickHit, countDroplets),
   (HitResult.SmallTickHit, countTiny),
   (HitResult.SmallTickMiss, countTinyMisses),
   (HitResult.Miss, misses)]

/-! ### Mod normalizer, embedded from `_parse_mods` (calculator.py) -/

/-- A raw mod entry: a bare string, a dict with optional lowercase and
capitalized acronym keys, or an attribute-bearing object likewise. -/
inductive ModInput where
  | str (s : String)
  | dict (lower upper : Option String)
  | obj (lower upper : Option String)
deriving DecidableEq

/-- Python `x or y` on optional strings: the left value unless it is falsy
(`None` or the empty string). -/
def pyOrStr : Option String → Option String → Option String
  | some s, b => if s = "" then b else some s
  | none, b => b

/-- Acronym extraction from one raw entry, embedding the per-entry logic of
`_parse_mods`: strings stand for themselves, dicts and objects try the
lowercase key then the capitalized key; entries yielding no (or an empty)
acronym are skipped. -/
def extractAcronym : ModInput → Option String
  | ModInput.str s => if s = "" then none else some s
  | ModInput.dict l u =>
      match pyOrStr l u with
      | none => none
      | some t => if t = "" then none else some t
  | ModInput.obj l u =>
      match pyOrStr l u with
      | none => none
      | some t => if t = "" then none else some t

/-- Python's `str.upper()` restricted to the character-wise map, modelling
the case folding used when comparing acronyms. -/
def pyUpper (s : String) : String := String.mk (s.data.map Char.toUpper)

/-- Embedding of `_parse_mods`: each entry's extracted acronym is matched
case-insensitively against the available mods; the first matching canonical
entry is appended, unmatched and unparsable entries are dropped. -/
def parse_mods (modList : List ModInput) (available : List String) : List String :=
  modList.filterMap (fun m =>
    (extractAcronym m).bind (fun t =>
      available.find? (fun x => pyUpper x == pyUpper t)))

/-! ### Orchestration pipeline, embedded from `calculate` (calculator.py) -/

/-- The decoded, mode-converted chart as the core consumes it: its primary
object list (for catch the classified objects; other modes only use the
count). -/
structure Beatmap where
  objects : List CatchObj
deriving DecidableEq

/-- Difficulty attributes returned by the external difficulty engine. -/
structure DiffAttrs where
  starRating : ℚ
  maxCombo : ℤ
deriving DecidableEq

/-- Result of `calculate`: a structured error record or a success record,
mirroring the returned Python dict shapes. -/
inductive Outcome where
  | err (msg : String)
  | ok (mode : ℤ) (stars pp : ℚ) (maxCombo : ℤ) (statsUsed : List (HitResult × ℤ))
deriving DecidableEq

/-- Embedding of `calculate` (calculator.py lines 472-554).  External
collaborators (chart decoding, difficulty and performance computation) are
passed as fallible functions; a raised exception is an `Except.error`
carrying its message, which the orchestration converts into an error
outcome.  The file-existence guard and the mode guard run in source order,
before the fallible block. -/
def calculate (fileExists : Bool) (mode : ℤ) (modList : List ModInput)
    (available : List String) (acc : ℚ) (combo : Option ℤ) (misses : ℤ)
    (scoreVal : Option ℤ) (statistics : Option StatsObj)
    (decodeResult : Except String Beatmap)
    (diffCalc : Beatmap → List String → Except String DiffAttrs)
    (perfCalc : List String → ℚ → ℤ → List (HitResult × ℤ) → Except String ℚ) :
    Outcome :=
  if fileExists = false then Outcome.err "File not found"
  else if ¬(mode = 0 ∨ mode = 1 ∨ mode = 2 ∨ mode = 3) then Outcome.err "Invalid mode"
  else
    match decodeResult with
    | Except.error e => Outcome.err e
    | Except.ok beatmap =>
      let csharpMods := parse_mods modList available
      match diffCalc beatmap csharpMods with
      | Except.error e => Outcome.err e
      | Except.ok diffAttr =>
        let effMiss := effective_misses statistics misses
        let stats :=
          if mode = 0 then sim_osu acc (beatmap.objects.length : ℤ) effMiss statistics
          else if mode = 1 then sim_taiko acc (beatmap.objects.length : ℤ) effMiss statistics
          else if mode = 2 then sim_catch acc beatmap.objects effMiss statistics
          else sim_mania acc (beatmap.objects.length : ℤ) effMiss scoreVal statistics
        let maxCombo :=
          match combo with
          | some c2 => c2
          | none => diffAttr.maxCombo
        match perfCalc csharpMods (acc / 100) maxCombo stats with
        | Except.error e => Outcome.err e
        | Except.ok pp => Outcome.ok mode diffAttr.starRating pp maxCombo stats

/-! ### Spec-side description of the Catch reconstruction (for refinement) -/

/-- The Catch simulation-path output exactly as the specification words it,
over a census (maxFruits, maxLargeTicks incl. tiny, maxSmallTicks): miss
charging to droplets then fruits, and the tiny count solved from the target
overall accuracy and clamped into range. -/
def catchSpecCounts (acc : ℚ) (maxFruits maxLargeTicks maxSmallTicks missCount : ℤ) :
    List (HitResult × ℤ) :=
  let maxDroplets : ℤ := maxLargeTicks - maxSmallTicks
  let maxCombo : ℤ := maxFruits + maxDroplets
  let countDroplets : ℤ := max 0 (maxDroplets - missCount)
  let missedDroplets : ℤ := maxDroplets - countDroplets
  let missedFruits : ℤ := missCount - missedDroplets
  let countFruits : ℤ := max 0 (maxFruits - missedFruits)
  let totalObjects : ℤ := maxCombo + maxSmallTicks
  let targetHits : ℤ := pyRound (acc / 100 * (totalObjects : ℚ))
  let countTiny : ℤ := min (max (targetHits - countFruits - countDroplets) 0) maxSmallTicks
  let tinyMiss : ℤ := maxSmallTicks - countTiny
  [(HitResult.Great, countFruits),
   (HitResult.LargeTickHit, countDroplets),
   (HitResult.SmallTickHit, countTiny),
   (HitResult.SmallTickMiss, tinyMiss),
   (HitResult.Miss, missCount)]

/-! ### Claim theorems -/

/-- C1: on the simulation path (no caller-supplied droplet or tiny counts),
the Catch reconstructor of `main.py` computes exactly the miss-charging and
accuracy-inversion formulas of the specification, for every census and
every miss count, returning the five judgment kinds. -/
theorem C1_main_sim_catch_spec (acc : ℚ) (objs : List CatchObj) (missCount : ℤ) :
    main_sim_catch acc objs missCount none none =
      catchSpecCounts acc (catchCensus objs).1 (catchCensus objs).2.1 (catchCensus objs).2.2
        missCount := by
  have ht : 0 ≤ (catchCensus objs).2.2 := (catchCensus_nonneg objs).2.2.1
  have key : ∀ x T : ℤ, 0 ≤ T → max 0 (min x T) = min (max x 0) T := by
    intro x T hT; omega
  unfold main_sim_catch catchSpecCounts
  simp only [List.cons.injEq, Prod.mk.injEq, true_and, and_true]
  refine ⟨key _ _ ht, ?_⟩
  rw [key _ _ ht]

/-- C6: the Standard reconstructor on the simulation path with
total 400, 5 misses and accuracy 95.0 returns best 373, ok 22, meh 0,
miss 5 (summing to 400), through the regime with relative accuracy at
least 0.25. -/
theorem C6_standard_concrete :
    sim_osu 95 400 5 none =
      [(HitResult.Great, 373), (HitResult.Ok, 22), (HitResult.Meh, 0), (HitResult.Miss, 5)] ∧
    sumCounts (sim_osu 95 400 5 none) = 400 ∧
    (1/4 : ℚ) ≤ max 0 (min 1 ((95 : ℚ) / 100 * 400 / 395)) := by
  have h1 : sim_osu 95 400 5 none =
      [(HitResult.Great, 373), (HitResult.Ok, 22), (HitResult.Meh, 0), (HitResult.Miss, 5)] := by
    norm_num [sim_osu, has_valid_stats, pyTruthy, pyRound, Int.floor_eq_iff, round_eq,
      max_def, min_def]
  refine ⟨h1, by rw [h1]; rfl, by norm_num [max_def, min_def]⟩

/-- C10: a record whose only positive field is named small_tick_miss does
not trigger the explicit path: the recognized-key list contains the
misspelled small_tck_miss instead, so the record is considered invalid,
the caller's miss argument stays effective, and every mode reconstructor
runs its accuracy-based simulation exactly as if no record were given. -/
theorem C10_misspelled_key (n m total : ℤ) (acc : ℚ) (scoreVal : Option ℤ)
    (objs : List CatchObj) (hn : 0 < n) :
    has_valid_stats (some (StatsObj.dict [("small_tick_miss", n)])) = false ∧
    ("small_tck_miss" ∈ statKeys ∧ "small_tick_miss" ∉ statKeys) ∧
    effective_misses (some (StatsObj.dict [("small_tick_miss", n)])) m = m ∧
    sim_osu acc total m (some (StatsObj.dict [("small_tick_miss", n)])) =
      sim_osu acc total m none ∧
    sim_taiko acc total m (some (StatsObj.dict [("small_tick_miss", n)])) =
      sim_taiko acc total m none ∧
    sim_mania acc total m scoreVal (some (StatsObj.dict [("small_tick_miss", n)])) =
      sim_mania acc total m scoreVal none ∧
    sim_catch acc objs m (some (StatsObj.dict [("small_tick_miss", n)])) =
      sim_catch acc objs m none := by
  have hvs : has_valid_stats (some (StatsObj.dict [("small_tick_miss", n)])) = false := by
    simp [has_valid_stats, statKeys, pyTruthy, extract_stat, lookupStr, List.find?]
  have hnone : has_valid_stats none = false := rfl
  refine ⟨hvs, ⟨by simp [statKeys], by simp [statKeys]⟩, ?_, ?_, ?_, ?_, ?_⟩
  · unfold effective_misses
    rw [hvs]
    rfl
  · unfold sim_osu
    rw [hvs, hnone]
    rfl
  · unfold sim_taiko
    rw [hvs, hnone]
    rfl
  · unfold sim_mania
    rw [hvs, hnone]
    rfl
  · unfold sim_catch
    rw [hvs, hnone]
    rfl

/-- Witness for C10 at a concrete record and miss count. -/
theorem C10_witness :
    has_valid_stats (some (StatsObj.dict [("small_tick_miss", 5)])) = false ∧
    effective_misses (some (StatsObj.dict [("small_tick_miss", 5)])) 3 = 3 :=
  ⟨(C10_misspelled_key 5 3 10 50 none [] (by norm_num)).1,
   (C10_misspelled_key 5 3 10 50 none [] (by norm_num)).2.2.1⟩

/-- C5: if the supplied record has a positive recognized field, the
Standard and Mania reconstructors return the record's per-kind values
verbatim (missing kinds 0), independently of accuracy, miss count, chart
size and score value. -/
theorem C5_explicit_idempotence (s : Option StatsObj) (hs : has_valid_stats s = true)
    (acc acc' : ℚ) (t t' m m' : ℤ) (sv sv' : Option ℤ) :
    sim_osu acc t m s = sim_osu acc' t' m' s ∧
    sim_osu acc t m s =
      [(HitResult.Great, extract_stat s "great" 0),
       (HitResult.Ok, extract_stat s "ok" 0),
       (HitResult.Meh, extract_stat s "meh" 0),
       (HitResult.Miss, extract_stat s "miss" 0)] ∧
    sim_mania acc t m sv s = sim_mania acc' t' m' sv' s ∧
    sim_mania acc t m sv s =
      [(HitResult.Perfect, extract_stat s "perfect" 0),
       (HitResult.Great, extract_stat s "great" 0),
       (HitResult.Good, extract_stat s "good" 0),
       (HitResult.Ok, extract_stat s "ok" 0),
       (HitResult.Meh, extract_stat s "meh" 0),
       (HitResult.Miss, extract_stat s "miss" 0)] := by
  unfold sim_osu sim_mania
  simp [hs]

/-- Witness for C5: a record with only a positive great field determines
the output for two different accuracy/size/miss combinations. -/
theorem C5_witness :
    sim_osu 12 100 0 (some (StatsObj.dict [("great", 3)])) =
      sim_osu 99 250 7 (some (StatsObj.dict [("great", 3)])) :=
  (C5_explicit_idempotence (some (StatsObj.dict [("great", 3)])) (by decide)
    12 99 100 250 0 7 none none).1

/-- C2 counterexample: a record supplying only the lowercase miss field is
valid and its miss field reads 9, yet the effective miss count resolves to
0 because the source re-reads the capitalized key Miss, refuting the claim
that the effective miss count is read from the record's miss field. -/
theorem C2_counterexample :
    has_valid_stats (some (StatsObj.dict [("miss", 9)])) = true ∧
    extract_stat (some (StatsObj.dict [("miss", 9)])) "miss" 0 = 9 ∧
    effective_misses (some (StatsObj.dict [("miss", 9)])) 0 = 0 :=
  ⟨by decide, by decide, by decide⟩

/-- C2 amended: the explicit path is selected iff the record is truthy and
some recognized key is strictly positive; when selected, the effective miss
count is re-read under the exact capitalized key Miss (default 0), and
otherwise it is the caller-provided miss argument. -/
theorem C2_resolver_amended (s : Option StatsObj) (m : ℤ) :
    (has_valid_stats s = true ↔
      (pyTruthy s = true ∧ ∃ k ∈ statKeys, 0 < extract_stat s k 0)) ∧
    (has_valid_stats s = true → effective_misses s m = extract_stat s "Miss" 0) ∧
    (has_valid_stats s = false → effective_misses s m = m) := by
  refine ⟨?_, ?_, ?_⟩
  · unfold has_valid_stats
    simp [List.any_eq_true]
  · intro h
    unfold effective_misses
    rw [h]
    rfl
  · intro h
    unfold effective_misses
    rw [h]
    rfl

/-- Witness for C2 at a concrete record and miss argument. -/
theorem C2_witness :
    effective_misses (some (StatsObj.dict [("miss", 9)])) 7 =
      extract_stat (some (StatsObj.dict [("miss", 9)])) "Miss" 0 :=
  (C2_resolver_amended (some (StatsObj.dict [("miss", 9)])) 7).2.1 (by decide)

/-- C8 counterexample: a record holding only the capitalized field Miss
(the first-letter-capitalized variant of miss) yields the default when the
lowercase name is looked up, refuting the claimed case-insensitive
fallback. -/
theorem C8_counterexample :
    String.capitalize "miss" = "Miss" ∧
    lookupStr [("Miss", 5)] "Miss" = some 5 ∧
    extract_stat (some (StatsObj.dict [("Miss", 5)])) "miss" 0 = 0 :=
  ⟨by decide, by decide, by decide⟩

/-- C8 amended: field reads are uniform across the mapping and object
shapes, but by exact name lookup only, with the default returned whenever
the exact name is absent - there is no capitalized fallback. -/
theorem C8_extract_amended (fields : List (String × ℤ)) (name : String) (d : ℤ) :
    extract_stat (some (StatsObj.dict fields)) name d =
      extract_stat (some (StatsObj.obj fields)) name d ∧
    extract_stat (some (StatsObj.dict fields)) name d = (lookupStr fields name).getD d ∧
    (lookupStr fields name = none → extract_stat (some (StatsObj.dict fields)) name d = d) ∧
    extract_stat none name d = d := by
  refine ⟨rfl, rfl, ?_, rfl⟩
  intro h
  show (lookupStr fields name).getD d = d
  rw [h]
  rfl

/-- Witness for C8 at a concrete record whose only key is the capitalized
variant of the looked-up name. -/
theorem C8_witness :
    extract_stat (some (StatsObj.dict [("Miss", 5)])) "miss" 0 = 0 :=
  (C8_extract_amended [("Miss", 5)] "miss" 0).2.2.1 (by decide)

/-- C4 counterexample: on the explicit path the supplied values are copied
verbatim, so a record with a negative ok count produces a negative output
count, refuting non-negativity for arbitrary caller-supplied statistics. -/
theorem C4_counterexample :
    (HitResult.Ok, (-3 : ℤ)) ∈
      sim_osu 95 10 0 (some (StatsObj.dict [("great", 1), ("ok", -3)])) ∧
    (-3 : ℤ) < 0 :=
  ⟨by decide, by decide⟩

theorem sim_osu_sim_nonneg (acc : ℚ) (t m : ℤ) (s : Option StatsObj)
    (hs : has_valid_stats s = false) (hm : 0 ≤ m) :
    ∀ p ∈ sim_osu acc t m s, 0 ≤ p.2 := by
  unfold sim_osu
  simp only [hs, Bool.false_eq_true, if_false]
  split_ifs with h1 h2 h3 <;> intro p hp <;>
      simp only [List.mem_cons, List.not_mem_nil, or_false] at hp
  · rcases hp with rfl
    exact hm
  · rcases hp with rfl | rfl | rfl | rfl <;> exact le_max_left _ _
  · rcases hp with rfl | rfl | rfl | rfl <;> exact le_max_left _ _
  · rcases hp with rfl | rfl | rfl | rfl <;> exact le_max_left _ _

theorem sim_taiko_sim_nonneg (acc : ℚ) (t m : ℤ) (s : Option StatsObj)
    (hs : has_valid_stats s = false) :
    ∀ p ∈ sim_taiko acc t m s, 0 ≤ p.2 := by
  unfold sim_taiko
  simp only [hs, Bool.false_eq_true, if_false]
  intro p hp
  simp only [List.mem_cons, List.not_mem_nil, or_false] at hp
  rcases hp with rfl | rfl | rfl <;> exact le_max_left _ _

theorem sim_mania_sim_nonneg (acc : ℚ) (t m : ℤ) (sv : Option ℤ) (s : Option StatsObj)
    (hs : has_valid_stats s = false) :
    ∀ p ∈ sim_mania acc t m sv s, 0 ≤ p.2 := by
  unfold sim_mania
  simp only [hs, Bool.false_eq_true, if_false]
  intro p hp
  simp only [List.mem_cons, List.not_mem_nil, or_false] at hp
  rcases hp with rfl | rfl | rfl | rfl | rfl | rfl <;> exact le_max_left _ _

theorem sim_catch_sim_nonneg (acc : ℚ) (objs : List CatchObj) (m : ℤ) (s : Option StatsObj)
    (hs : has_valid_stats s = false) (hm : 0 ≤ m) :
    ∀ p ∈ sim_catch acc objs m s, 0 ≤ p.2 := by
  have hc := catchCensus_nonneg objs
  unfold sim_catch
  simp only [hs, Bool.false_eq_true, if_false]
  intro p hp
  simp only [List.mem_cons, List.not_mem_nil, or_false] at hp
  rcases hp with rfl | rfl | rfl | rfl
  · exact hc.1
  · exact le_max_left _ _
  · exact hc.2.2.1
  · exact hm

/-- C4 amended: with a non-negative miss count, every judgment count
produced on the simulation path of each of the four reconstructors is
non-negative; on the explicit path the caller's values are copied verbatim
and can be negative (see the counterexample). -/
theorem C4_nonneg_amended (acc : ℚ) (t m : ℤ) (s : Option StatsObj) (sv : Option ℤ)
    (objs : List CatchObj) (hm : 0 ≤ m) (hs : has_valid_stats s = false) :
    (∀ p ∈ sim_osu acc t m s, 0 ≤ p.2) ∧
    (∀ p ∈ sim_taiko acc t m s, 0 ≤ p.2) ∧
    (∀ p ∈ sim_mania acc t m sv s, 0 ≤ p.2) ∧
    (∀ p ∈ sim_catch acc objs m s, 0 ≤ p.2) :=
  ⟨sim_osu_sim_nonneg acc t m s hs hm, sim_taiko_sim_nonneg acc t m s hs,
   sim_mania_sim_nonneg acc t m sv s hs, sim_catch_sim_nonneg acc objs m s hs hm⟩

/-- Witness for C4 at a concrete simulation-path input. -/
theorem C4_witness : (0 : ℤ) ≤ (HitResult.Miss, (5 : ℤ)).2 :=
  (C4_nonneg_amended 95 5 5 none none [] (by norm_num) rfl).1
    (HitResult.Miss, (5 : ℤ)) (by decide)

/-- Key inequality of the Standard regime with relative accuracy at least
0.25: the ok plus meh real-valued counts never exceed the relevant-object
count. -/
theorem osu_regime1_key {A r : ℚ} (hA1 : A ≤ 1) (hb1 : 1/4 ≤ A) (hr : 0 < r) :
    6 * r * (1 - A) / (5 * ((1 - (A - 1/4) / (3/4)) ^ 2) + 4) *
      (1 + (1 - (A - 1/4) / (3/4)) ^ 2) ≤ r := by
  set u : ℚ := 1 - (A - 1/4) / (3/4) with hu
  have hu0 : 0 ≤ u := by rw [hu]; nlinarith
  have hu1 : u ≤ 1 := by rw [hu]; nlinarith
  have hden : (0:ℚ) < 5 * u ^ 2 + 4 := by positivity
  have hA_eq : 1 - A = 3/4 * u := by rw [hu]; ring
  have h9 : (0:ℚ) ≤ 9 * u ^ 2 - u + 8 := by nlinarith [sq_nonneg (3*u - 1/6)]
  have hfac : (0:ℚ) ≤ (1 - u) * (9 * u ^ 2 - u + 8) := mul_nonneg (by linarith) h9
  rw [div_mul_eq_mul_div, div_le_iff hden, hA_eq]
  have hxp : 0 ≤ r * ((1 - u) * (9 * u ^ 2 - u + 8)) := mul_nonneg hr.le hfac
  have key2 : 6 * r * (3/4 * u) * (1 + u ^ 2) =
      r * (5 * u ^ 2 + 4) - 1/2 * (r * ((1 - u) * (9 * u ^ 2 - u + 8))) := by ring
  rw [key2]
  exact sub_le_self _ (mul_nonneg (by norm_num) hxp)

theorem sim_osu_sum_sim (acc : ℚ) (t m : ℤ) (s : Option StatsObj)
    (hs : has_valid_stats s = false) (h0 : 0 ≤ m) (h1 : m ≤ t) :
    sumCounts (sim_osu acc t m s) = t := by
  unfold sim_osu
  simp only [hs, Bool.false_eq_true, if_false]
  by_cases hr : t - m ≤ 0
  · rw [if_pos hr]
    simp only [sumCounts, List.map_cons, List.map_nil, List.sum_cons, List.sum_nil]
    omega
  · rw [if_neg hr]
    have hrZ : (0:ℤ) < t - m := by omega
    have hrQ : (0:ℚ) < ((t - m : ℤ) : ℚ) := by exact_mod_cast hrZ
    set A : ℚ := max 0 (min 1 (acc / 100 * (t : ℚ) / ((t - m : ℤ) : ℚ))) with hA
    have hA0 : 0 ≤ A := le_max_left _ _
    have hA1 : A ≤ 1 := max_le (by norm_num) (min_le_left _ _)
    split_ifs with hb1 hb2
    · -- regime: 1/4 ≤ relAcc
      set R : ℚ := (1 - (A - 1/4) / (3/4)) ^ 2 with hR
      have hR0 : 0 ≤ R := by rw [hR]; positivity
      set C : ℚ := 6 * ((t - m : ℤ) : ℚ) * (1 - A) / (5 * R + 4) with hC
      have hC0 : 0 ≤ C := by
        rw [hC]
        apply div_nonneg
        · nlinarith
        · linarith
      have hkey : C * (1 + R) ≤ ((t - m : ℤ) : ℚ) := by
        rw [hC, hR]
        exact osu_regime1_key hA1 hb1 hrQ
      have hCR : 0 ≤ C * R := mul_nonneg hC0 hR0
      set P1 : ℤ := pyRound C with hP1
      set P2 : ℤ := pyRound (C + C * R) with hP2
      have hP1_0 : 0 ≤ P1 := by rw [hP1]; exact pyRound_nonneg hC0
      have hP12 : P1 ≤ P2 := by
        rw [hP1, hP2]
        exact pyRound_mono (by linarith)
      have hP2r : P2 ≤ t - m := by
        rw [hP2]
        apply pyRound_le_intCast
        have hcc : C + C * R = C * (1 + R) := by ring
        rw [hcc]
        exact hkey
      simp only [sumCounts, List.map_cons, List.map_nil, List.sum_cons, List.sum_nil]
      omega
    · -- regime: 1/6 ≤ relAcc < 1/4
      push_neg at hb1
      set C : ℚ := 6 * ((t - m : ℤ) : ℚ) * A - ((t - m : ℤ) : ℚ) with hC
      have hC0 : 0 ≤ C := by rw [hC]; nlinarith
      have hCr : C ≤ ((t - m : ℤ) : ℚ) := by rw [hC]; nlinarith
      have hsum : C + (((t - m : ℤ) : ℚ) - C) = ((t - m : ℤ) : ℚ) := by ring
      rw [hsum, pyRound_intCast]
      set P1 : ℤ := pyRound C with hP1
      have hP1_0 : 0 ≤ P1 := by rw [hP1]; exact pyRound_nonneg hC0
      have hP1r : P1 ≤ t - m := by rw [hP1]; exact pyRound_le_intCast hCr
      simp only [sumCounts, List.map_cons, List.map_nil, List.sum_cons, List.sum_nil]
      omega
    · -- regime: relAcc < 1/6
      push_neg at hb1 hb2
      set C : ℚ := 6 * ((t - m : ℤ) : ℚ) * A with hC
      have hC0 : 0 ≤ C := by
        rw [hC]
        have : (0:ℚ) ≤ 6 * ((t - m : ℤ) : ℚ) := by linarith
        exact mul_nonneg this hA0
      have hCr : C ≤ ((t - m : ℤ) : ℚ) := by rw [hC]; nlinarith
      set P : ℤ := pyRound C with hP
      have hP_0 : 0 ≤ P := by rw [hP]; exact pyRound_nonneg hC0
      have hPr : P ≤ t - m := by rw [hP]; exact pyRound_le_intCast hCr
      simp only [sumCounts, List.map_cons, List.map_nil, List.sum_cons, List.sum_nil]
      omega

theorem pyRound_unit_mul {p : ℚ} (R : ℤ) (hp0 : 0 ≤ p) (hp1 : p ≤ 1) (hR : 0 ≤ R) :
    0 ≤ pyRound (p * (R : ℚ)) ∧ pyRound (p * (R : ℚ)) ≤ R := by
  have hRQ : (0:ℚ) ≤ (R : ℚ) := by exact_mod_cast hR
  constructor
  · exact pyRound_nonneg (mul_nonneg hp0 hRQ)
  · apply pyRound_le_intCast
    calc p * (R : ℚ) ≤ 1 * (R : ℚ) := mul_le_mul_of_nonneg_right hp1 hRQ
    _ = (R : ℚ) := one_mul _

theorem sim_taiko_sum_sim (acc : ℚ) (t m : ℤ) (s : Option StatsObj)
    (hs : has_valid_stats s = false) (h0 : 0 ≤ m) (h1 : m ≤ t)
    (ha : 50 ≤ acc) (ha2 : acc ≤ 100) :
    sumCounts (sim_taiko acc t m s) = t := by
  unfold sim_taiko
  simp only [hs, Bool.false_eq_true, if_false]
  have hrZ : (0:ℤ) ≤ t - m := by omega
  have hrQ : (0:ℚ) ≤ ((t - m : ℤ) : ℚ) := by exact_mod_cast hrZ
  set P : ℤ := pyRound ((2 * (acc / 100) - 1) * ((t - m : ℤ) : ℚ)) with hP
  have hx0 : (0:ℚ) ≤ (2 * (acc / 100) - 1) * ((t - m : ℤ) : ℚ) :=
    mul_nonneg (by linarith) hrQ
  have hg0 : 0 ≤ P := by rw [hP]; exact pyRound_nonneg hx0
  have hg1 : P ≤ t - m := by
    rw [hP]
    apply pyRound_le_intCast
    nlinarith [mul_nonneg (show (0:ℚ) ≤ 2 - 2 * (acc / 100) by linarith) hrQ]
  simp only [sumCounts, List.map_cons, List.map_nil, List.sum_cons, List.sum_nil]
  omega

theorem sim_mania_sum_sim (acc : ℚ) (t m : ℤ) (sv : Option ℤ) (s : Option StatsObj)
    (hs : has_valid_stats s = false) (h0 : 0 ≤ m) (h1 : m ≤ t) (ha2 : acc ≤ 100) :
    sumCounts (sim_mania acc t m sv s) = t := by
  unfold sim_mania
  simp only [hs, Bool.false_eq_true, if_false]
  have haQ : acc / 100 ≤ 1 := by linarith
  split_ifs with hrel h96 h90 h80 h60
  · -- band: accuracy at least 0.96
    have hp0 : (0:ℚ) ≤ 1 - (1 - acc / 100) / (4/100) := by
      have hd : (1 - acc / 100) / (4/100) = 25 * (1 - acc / 100) := by ring
      rw [hd]; linarith
    have hp1 : 1 - (1 - acc / 100) / (4/100) ≤ 1 := by
      have hd : (1 - acc / 100) / (4/100) = 25 * (1 - acc / 100) := by ring
      rw [hd]; linarith
    obtain ⟨hq0, hq1⟩ := pyRound_unit_mul (t - m) hp0 hp1 (by omega)
    dsimp only
    simp only [sumCounts, List.map_cons, List.map_nil, List.sum_cons, List.sum_nil]
    omega
  · -- band: 0.90 to 0.96
    push_neg at h96
    have hp0 : (0:ℚ) ≤ 1 - (96/100 - acc / 100) / (6/100) := by
      have hd : (96/100 - acc / 100) / (6/100) = 100/6 * (96/100 - acc / 100) := by ring
      rw [hd]; linarith
    have hp1 : 1 - (96/100 - acc / 100) / (6/100) ≤ 1 := by
      have hd : (96/100 - acc / 100) / (6/100) = 100/6 * (96/100 - acc / 100) := by ring
      rw [hd]; linarith
    obtain ⟨hq0, hq1⟩ := pyRound_unit_mul (t - m) hp0 hp1 (by omega)
    dsimp only
    simp only [sumCounts, List.map_cons, List.map_nil, List.sum_cons, List.sum_nil]
    omega
  · -- band: 0.80 to 0.90
    push_neg at h96 h90
    have hp0 : (0:ℚ) ≤ 1 - (90/100 - acc / 100) / (10/100) := by
      have hd : (90/100 - acc / 100) / (10/100) = 10 * (90/100 - acc / 100) := by ring
      rw [hd]; linarith
    have hp1 : 1 - (90/100 - acc / 100) / (10/100) ≤ 1 := by
      have hd : (90/100 - acc / 100) / (10/100) = 10 * (90/100 - acc / 100) := by ring
      rw [hd]; linarith
    obtain ⟨hq0, hq1⟩ := pyRound_unit_mul (t - m) hp0 hp1 (by omega)
    dsimp only
    simp only [sumCounts, List.map_cons, List.map_nil, List.sum_cons, List.sum_nil]
    omega
  · -- band: 0.60 to 0.80
    push_neg at h96 h90 h80
    have hp0 : (0:ℚ) ≤ 1 - (80/100 - acc / 100) / (20/100) := by
      have hd : (80/100 - acc / 100) / (20/100) = 5 * (80/100 - acc / 100) := by ring
      rw [hd]; linarith
    have hp1 : 1 - (80/100 - acc / 100) / (20/100) ≤ 1 := by
      have hd : (80/100 - acc / 100) / (20/100) = 5 * (80/100 - acc / 100) := by ring
      rw [hd]; linarith
    obtain ⟨hq0, hq1⟩ := pyRound_unit_mul (t - m) hp0 hp1 (by omega)
    dsimp only
    simp only [sumCounts, List.map_cons, List.map_nil, List.sum_cons, List.sum_nil]
    omega
  · -- lowest band
    dsimp only
    simp only [sumCounts, List.map_cons, List.map_nil, List.sum_cons, List.sum_nil]
    omega
  · -- no relevant objects
    dsimp only
    simp only [sumCounts, List.map_cons, List.map_nil, List.sum_cons, List.sum_nil]
    omega

/-- C3 counterexample: the Taiko simulation path at accuracy 0 with one
object and no misses returns counts summing to 2, not to the census total
1: the negative great count is clamped to 0 only after the good count
already absorbed it. -/
theorem C3_counterexample :
    sim_taiko 0 1 0 none = [(HitResult.Great, 0), (HitResult.Ok, 2), (HitResult.Miss, 0)] ∧
    sumCounts (sim_taiko 0 1 0 none) = 2 ∧ (2 : ℤ) ≠ 1 := by
  have h1 : sim_taiko 0 1 0 none =
      [(HitResult.Great, 0), (HitResult.Ok, 2), (HitResult.Miss, 0)] := by
    norm_num [sim_taiko, has_valid_stats, pyTruthy, pyRound, Int.floor_eq_iff, round_eq]
  exact ⟨h1, by rw [h1]; rfl, by norm_num⟩

/-- C3 amended: with a non-negative miss count bounded by the census total,
the Standard and Mania simulation paths conserve the total for every
accuracy in the range 0 to 100, and the Taiko simulation path conserves it
for accuracy between 50 and 100 (conservation fails for Taiko below 50,
see the counterexample). -/
theorem C3_conservation_amended (acc : ℚ) (t m : ℤ) (s : Option StatsObj) (sv : Option ℤ)
    (hs : has_valid_stats s = false) (h0 : 0 ≤ m) (h1 : m ≤ t)
    (ha0 : 0 ≤ acc) (ha2 : acc ≤ 100) :
    sumCounts (sim_osu acc t m s) = t ∧
    sumCounts (sim_mania acc t m sv s) = t ∧
    (50 ≤ acc → sumCounts (sim_taiko acc t m s) = t) :=
  ⟨sim_osu_sum_sim acc t m s hs h0 h1,
   sim_mania_sum_sim acc t m sv s hs h0 h1 ha2,
   fun ha => sim_taiko_sum_sim acc t m s hs h0 h1 ha ha2⟩

/-- Witness for C3 at the concrete Standard scenario of the spec. -/
theorem C3_witness : sumCounts (sim_osu 95 400 5 none) = 400 :=
  (C3_conservation_amended 95 400 5 none none rfl (by norm_num) (by norm_num)
    (by norm_num) (by norm_num)).1

/-- C7 counterexample: the normalizer does not de-duplicate; supplying the
same mod twice (in different cases) yields the canonical entry twice. -/
theorem C7_counterexample :
    parse_mods [ModInput.str "HD", ModInput.str "hd"] ["HD"] = ["HD", "HD"] ∧
    ¬ (parse_mods [ModInput.str "HD", ModInput.str "hd"] ["HD"]).Nodup :=
  ⟨by decide, by decide⟩

/-- C7 amended: the normalizer maps each raw entry independently and in
input order (so duplicates are retained, not removed): unparsable entries
and entries whose acronym matches no available mod are dropped, matched
entries contribute the first canonical match, and the match is
case-insensitive (hd, HD and a record with acronym Hd resolve alike). -/
theorem C7_mod_normalizer_amended (available : List String) (l1 l2 : List ModInput)
    (m : ModInput) :
    parse_mods (l1 ++ l2) available = parse_mods l1 available ++ parse_mods l2 available ∧
    (extractAcronym m = none → parse_mods (m :: l2) available = parse_mods l2 available) ∧
    (∀ t2, extractAcronym m = some t2 →
      available.find? (fun x => pyUpper x == pyUpper t2) = none →
      parse_mods (m :: l2) available = parse_mods l2 available) ∧
    (∀ t2 c, extractAcronym m = some t2 →
      available.find? (fun x => pyUpper x == pyUpper t2) = some c →
      parse_mods (m :: l2) available = c :: parse_mods l2 available) ∧
    parse_mods [ModInput.str "hd"] available = parse_mods [ModInput.str "HD"] available ∧
    parse_mods [ModInput.dict (some "Hd") none] available =
      parse_mods [ModInput.str "HD"] available := by
  refine ⟨List.filterMap_append _ _ _, ?_, ?_, ?_, ?_, ?_⟩
  · intro h
    simp [parse_mods, h]
  · intro t2 h hf
    simp [parse_mods, h, hf]
  · intro t2 c h hf
    simp [parse_mods, h, hf]
  · have he : pyUpper "hd" = pyUpper "HD" := by decide
    simp [parse_mods, List.filterMap_cons, extractAcronym, he]
  · have he : pyUpper "Hd" = pyUpper "HD" := by decide
    simp [parse_mods, List.filterMap_cons, extractAcronym, pyOrStr, he]

/-- Witness for C7: the lowercase raw token hd resolves to the canonical
entry HD. -/
theorem C7_witness :
    parse_mods [ModInput.str "hd"] ["HD"] = "HD" :: parse_mods [] ["HD"] :=
  (C7_mod_normalizer_amended ["HD"] [] [] (ModInput.str "hd")).2.2.2.1 "hd" "HD"
    (by decide) (by decide)

/-- C9 counterexample: the file-existence guard precedes mode validation,
so a missing chart with an out-of-range mode yields the file error, not the
invalid-mode error, refuting the claim for every input. -/
theorem C9_counterexample :
    calculate false 7 [] [] 100 none 0 none none (Except.ok ⟨[]⟩)
        (fun _ _ => Except.ok ⟨0, 0⟩) (fun _ _ _ _ => Except.ok 0) =
      Outcome.err "File not found" ∧
    Outcome.err "File not found" ≠ Outcome.err "Invalid mode" :=
  ⟨rfl, by decide⟩

/-- C9 amended: with an existing chart file, an out-of-range mode yields
the invalid-mode error; chart-decoding, difficulty-engine and
performance-engine failures each surface as an error outcome carrying the
collaborator's message; and the outcome is always exactly one of an error
record or a success record. -/
theorem C9_error_handling_amended (fe : Bool) (mode : ℤ) (modList : List ModInput)
    (available : List String) (acc : ℚ) (combo : Option ℤ) (misses : ℤ)
    (sv : Option ℤ) (statistics : Option StatsObj)
    (dr : Except String Beatmap)
    (dc : Beatmap → List String → Except String DiffAttrs)
    (pc : List String → ℚ → ℤ → List (HitResult × ℤ) → Except String ℚ) :
    (fe = true → ¬(mode = 0 ∨ mode = 1 ∨ mode = 2 ∨ mode = 3) →
      calculate fe mode modList available acc combo misses sv statistics dr dc pc =
        Outcome.err "Invalid mode") ∧
    (∀ e, fe = true → (mode = 0 ∨ mode = 1 ∨ mode = 2 ∨ mode = 3) →
      dr = Except.error e →
      calculate fe mode modList available acc combo misses sv statistics dr dc pc =
        Outcome.err e) ∧
    (∀ e b, fe = true → (mode = 0 ∨ mode = 1 ∨ mode = 2 ∨ mode = 3) →
      dr = Except.ok b → dc b (parse_mods modList available) = Except.error e →
      calculate fe mode modList available acc combo misses sv statistics dr dc pc =
        Outcome.err e) ∧
    (∀ e b d2, fe = true → (mode = 0 ∨ mode = 1 ∨ mode = 2 ∨ mode = 3) →
      dr = Except.ok b → dc b (parse_mods modList available) = Except.ok d2 →
      (∀ a2 b2 c2 d3, pc a2 b2 c2 d3 = Except.error e) →
      calculate fe mode modList available acc combo misses sv statistics dr dc pc =
        Outcome.err e) ∧
    ((∃ msg, calculate fe mode modList available acc combo misses sv statistics dr dc pc =
        Outcome.err msg) ∨
     (∃ md st pp mc su,
        calculate fe mode modList available acc combo misses sv statistics dr dc pc =
          Outcome.ok md st pp mc su)) ∧
    (∀ msg mode2 st pp mc su,
      Outcome.err msg ≠ Outcome.ok mode2 st pp mc su) := by
  refine ⟨?_, ?_, ?_, ?_, ?_, ?_⟩
  · intro hf hm
    unfold calculate
    rw [if_neg (by simp [hf]), if_pos hm]
  · intro e hf hmv hdr
    subst hdr
    unfold calculate
    rw [if_neg (by simp [hf]), if_neg (not_not_intro hmv)]
  · intro e b hf hmv hdr hdc
    subst hdr
    unfold calculate
    rw [if_neg (by simp [hf]), if_neg (not_not_intro hmv)]
    dsimp only
    rw [hdc]
  · intro e b d2 hf hmv hdr hdc hpc
    subst hdr
    unfold calculate
    rw [if_neg (by simp [hf]), if_neg (not_not_intro hmv)]
    dsimp only
    rw [hdc]
    dsimp only
    rw [hpc]
  · rcases ho : calculate fe mode modList available acc combo misses sv statistics dr dc pc
      with msg | ⟨md, st, pp, mc, su⟩
    · exact Or.inl ⟨msg, rfl⟩
    · exact Or.inr ⟨md, st, pp, mc, su, rfl⟩
  · intro msg mode2 st pp mc su h
    exact Outcome.noConfusion h

/-- Witness for C9: an existing file with mode 7 produces the invalid-mode
error outcome. -/
theorem C9_witness :
    calculate true 7 [] [] 100 none 0 none none (Except.ok ⟨[]⟩)
        (fun _ _ => Except.ok ⟨0, 0⟩) (fun _ _ _ _ => Except.ok 0) =
      Outcome.err "Invalid mode" :=
  (C9_error_handling_amended true 7 [] [] 100 none 0 none none (Except.ok ⟨[]⟩)
    (fun _ _ => Except.ok ⟨0, 0⟩) (fun _ _ _ _ => Except.ok 0)).1 rfl (by norm_num)
